import Mathlib

/-!
Verification of the HWP binary-record decoder of `doc_to_md`
(`src/doc_to_md/parsers/hwp_parser.py`).

Byte buffers are modelled as `List Nat` (one entry per byte); decoded text
is modelled as the list of Unicode code points of the Python string
(`"\n"` is `10`, the non-breaking space is `160`, `chr(code)` is `code`).
All loops of the source are expressed through one fueled tail-recursive
combinator `loopF` whose fuel is always sufficient (each iteration of the
source loops advances the cursor by at least one byte), so every definition
is executable and kernel-reducible.
-/

/-- Generic fueled loop: `step i acc` returns `none` to stop, or
`some (i', acc')` to continue at cursor `i'` with accumulator `acc'`.
Models the `while` loops of `_extract_hwp_text` / `_decode_para_text`. -/
def loopF {α : Type} (step : Nat → α → Option (Nat × α)) : Nat → Nat → α → α
  | 0, _, acc => acc
  | fuel + 1, i, acc =>
    match step i acc with
    | none => acc
    | some (i', acc') => loopF step fuel i' acc'

/-- Runs `loopF` with fuel `N + 1`; `N` is the buffer length, which bounds
the number of iterations because every step advances the cursor. -/
def runLoop {α : Type} (step : Nat → α → Option (Nat × α)) (N : Nat) (i : Nat) (acc : α) : α :=
  loopF step (N + 1) i acc

/-- Little-endian 16-bit read at offset `i` (`struct.unpack_from("<H", data, i)`).
Out-of-range reads default to 0; the source only reads guarded offsets. -/
def unpackLE16 (data : List Nat) (i : Nat) : Nat :=
  data.getD i 0 + 256 * data.getD (i + 1) 0

/-- Little-endian 32-bit read at offset `i` (`struct.unpack_from("<I", data, i)`). -/
def unpackLE32 (data : List Nat) (i : Nat) : Nat :=
  data.getD i 0 + 256 * data.getD (i + 1) 0 + 65536 * data.getD (i + 2) 0 +
    16777216 * data.getD (i + 3) 0

/-- Record-header field `tag_id = header & 0x3FF` (hwp_parser.py:286). -/
def tag_id (header : Nat) : Nat := header &&& 0x3FF

/-- Record-header field `level = (header >> 10) & 0x3FF` (hwp_parser.py:287).
The source computes this field but never uses it. -/
def level (header : Nat) : Nat := (header >>> 10) &&& 0x3FF

/-- Record-header field `size = (header >> 20) & 0xFFF` (hwp_parser.py:288). -/
def size12 (header : Nat) : Nat := (header >>> 20) &&& 0xFFF

/-- Control codes that carry 14 bytes of inline data
(`(1, 2, 3, 11, 12, 14, 15, 16, 17, 18, 21, 22, 23)`, hwp_parser.py:325). -/
def skipCodes : List Nat := [1, 2, 3, 11, 12, 14, 15, 16, 17, 18, 21, 22, 23]

/-- One iteration of the `while i + 1 < len(data)` loop of
`HwpParser._decode_para_text` (hwp_parser.py:317-337).  The source advances
`i` by 2 after reading the code, then by `14 if code <= 3 else 14` (14 in
both arms) for inline-control codes. -/
def decodeStep (data : List Nat) (i : Nat) (acc : List Nat) : Option (Nat × List Nat) :=
  if i + 1 < data.length then
    if unpackLE16 data i = 0 then none
    else if unpackLE16 data i < 32 then
      if unpackLE16 data i ∈ skipCodes then some (i + 2 + 14, acc)
      else if unpackLE16 data i = 10 then some (i + 2, acc ++ [10])
      else if unpackLE16 data i = 13 then some (i + 2, acc ++ [10])
      else if unpackLE16 data i = 24 then some (i + 2, acc)
      else if unpackLE16 data i = 30 then some (i + 2, acc ++ [160])
      else some (i + 2, acc)
    else some (i + 2, acc ++ [unpackLE16 data i])
  else none

/-- The decode loop of `_decode_para_text` started at cursor `i` with the
characters accumulated so far. -/
def decodeFrom (data : List Nat) (i : Nat) (acc : List Nat) : List Nat :=
  runLoop (decodeStep data) data.length i acc

/-- `HwpParser._decode_para_text` (hwp_parser.py:312-339): decodes a
paragraph-text payload into the emitted code points. -/
def decode_para_text (data : List Nat) : List Nat :=
  decodeFrom data 0 []

/-- Code points stripped by Python `str.strip()` (all code points `c` with
`chr(c).isspace()`). -/
def isSpaceCode (c : Nat) : Bool :=
  c ∈ [9, 10, 11, 12, 13, 28, 29, 30, 31, 32, 133, 160, 0x1680,
       0x2000, 0x2001, 0x2002, 0x2003, 0x2004, 0x2005, 0x2006, 0x2007,
       0x2008, 0x2009, 0x200A, 0x2028, 0x2029, 0x202F, 0x205F, 0x3000]

/-- Python `str.strip()` on a list of code points. -/
def stripCodes (l : List Nat) : List Nat :=
  ((l.dropWhile isSpaceCode).reverse.dropWhile isSpaceCode).reverse

/-- Body of `if tag_id == 67: ... text_parts.append(text.strip())`
(hwp_parser.py:304-308) applied to one record's payload. -/
def pushText (tag : Nat) (payload : List Nat) (acc : List (List Nat)) : List (List Nat) :=
  if tag = 67 then
    if stripCodes (decode_para_text payload) = [] then acc
    else acc ++ [stripCodes (decode_para_text payload)]
  else acc

/-- One iteration of the record-walking loop of `HwpParser._extract_hwp_text`
(hwp_parser.py:280-308): read the 4-byte header, resolve the 0xFFF extended
size, bounds-check the payload, slice it and dispatch on the tag. -/
def extractStep (data : List Nat) (i : Nat) (acc : List (List Nat)) :
    Option (Nat × List (List Nat)) :=
  if i + 4 > data.length then none
  else if size12 (unpackLE32 data i) = 0xFFF then
    if i + 8 > data.length then none
    else if i + 8 + unpackLE32 data (i + 4) > data.length then none
    else some (i + 8 + unpackLE32 data (i + 4),
      pushText (tag_id (unpackLE32 data i))
        ((data.drop (i + 8)).take (unpackLE32 data (i + 4))) acc)
  else if i + 4 + size12 (unpackLE32 data i) > data.length then none
  else some (i + 4 + size12 (unpackLE32 data i),
    pushText (tag_id (unpackLE32 data i))
      ((data.drop (i + 4)).take (size12 (unpackLE32 data i))) acc)

/-- The record walker of `_extract_hwp_text` started at cursor `i` with the
text fragments accumulated so far. -/
def walkFrom (data : List Nat) (i : Nat) (acc : List (List Nat)) : List (List Nat) :=
  runLoop (extractStep data) data.length i acc

/-- `HwpParser._extract_hwp_text` (hwp_parser.py:275-310): walks the record
stream and joins the decoded tag-67 fragments with `"\n\n"`. -/
def extract_hwp_text (data : List Nat) : List Nat :=
  List.intercalate [10, 10] (walkFrom data 0 [])

/-- Abstraction of the opened OLE container as seen by `HwpParser._parse_hwp`:
whether `olefile.isOleFile` accepts the file, the bytes of the `FileHeader`
stream, the bytes of the consecutive `BodyText/SectionN` streams
(N = 0, 1, ... until the first absent index), and the input path. -/
structure HwpFile where
  isOle : Bool
  header : List Nat
  sections : List (List Nat)
  path : String

/-- The `ParserError` raises of `_parse_hwp`, one constructor per raise site:
`notValidHwp` models hwp_parser.py:197 (message `올바른 HWP 파일이 아닙니다:
{file_path}`, raised when the magic-signature check `olefile.isOleFile`
fails) and `noExtractableText` models hwp_parser.py:267 (message `HWP에서
텍스트를 추출할 수 없습니다: {file_path}`, raised when no section yielded
text).  Both carry the input path, which the messages name. -/
inductive ParserError where
  | notValidHwp (path : String)
  | noExtractableText (path : String)
deriving DecidableEq

/-- `is_compressed = bool(header[36] & 1)` (hwp_parser.py:208). -/
def isCompressed (f : HwpFile) : Bool :=
  (f.header.getD 36 0) &&& 1 != 0

/-- The section loop of `_parse_hwp` (hwp_parser.py:211-231): for each
section stream, optionally inflate (a `zlib.error` makes the section
contribute nothing and the loop continue), run the record walker, and keep
non-empty texts.  `inflate` models `zlib.decompress(data, -15)`, returning
`none` on `zlib.error`. -/
def collectParts (inflate : List Nat → Option (List Nat)) (compressed : Bool) :
    List (List Nat) → List (List Nat)
  | [] => []
  | s :: rest =>
    match (if compressed then inflate s else some s) with
    | none => collectParts inflate compressed rest
    | some d =>
      if extract_hwp_text d = [] then collectParts inflate compressed rest
      else extract_hwp_text d :: collectParts inflate compressed rest

/-- The section loop re-expressed on the already (non-)inflated streams:
`none` is a section whose decompression failed. -/
def collectPartsOpt : List (Option (List Nat)) → List (List Nat)
  | [] => []
  | none :: rest => collectPartsOpt rest
  | some d :: rest =>
    if extract_hwp_text d = [] then collectPartsOpt rest
    else extract_hwp_text d :: collectPartsOpt rest

/-- `HwpParser._parse_hwp` (hwp_parser.py:182-273), text path: magic check,
compression flag, section loop, and the two `ParserError` raises.  The
result is the `content` of the returned `ParseResult`
(`"\n\n".join(parts)`). -/
def parse_hwp (inflate : List Nat → Option (List Nat)) (f : HwpFile) :
    Except ParserError (List Nat) :=
  if f.isOle then
    if collectParts inflate (isCompressed f) f.sections = [] then
      .error (.noExtractableText f.path)
    else .ok (List.intercalate [10, 10] (collectParts inflate (isCompressed f) f.sections))
  else .error (.notValidHwp f.path)

/-- The control codes listed by the specification's code table (§4.4). -/
def specSkipCodes : List Nat := [1, 2, 3, 11, 12, 14, 15, 16, 17, 18, 21, 22, 23]

/-- One step of the paragraph text decoder as the specification words it:
stop when fewer than 2 bytes remain or on code 0; skip 14 extra bytes for
the listed control codes; line break for 10 and 13; nothing for 24; NBSP
for 30; nothing for other codes below 32; the code point itself otherwise. -/
def decodeSpecStep (data : List Nat) (i : Nat) (acc : List Nat) : Option (Nat × List Nat) :=
  if i + 2 ≤ data.length then
    if data.getD i 0 + 256 * data.getD (i + 1) 0 = 0 then none
    else if data.getD i 0 + 256 * data.getD (i + 1) 0 ∈ specSkipCodes then
      some (i + 2 + 14, acc)
    else if data.getD i 0 + 256 * data.getD (i + 1) 0 = 10 ∨
            data.getD i 0 + 256 * data.getD (i + 1) 0 = 13 then
      some (i + 2, acc ++ [10])
    else if data.getD i 0 + 256 * data.getD (i + 1) 0 = 24 then some (i + 2, acc)
    else if data.getD i 0 + 256 * data.getD (i + 1) 0 = 30 then some (i + 2, acc ++ [160])
    else if data.getD i 0 + 256 * data.getD (i + 1) 0 < 32 then some (i + 2, acc)
    else some (i + 2, acc ++ [data.getD i 0 + 256 * data.getD (i + 1) 0])
  else none

/-- The paragraph text decoder as the specification's code table describes
it (spec §4.4 / claim C2), to be compared with `decode_para_text`. -/
def decodeParaTextSpec (data : List Nat) : List Nat :=
  runLoop (decodeSpecStep data) data.length 0 []

/-- Instrumented 16-bit read whose out-of-bounds fallback is a parameter:
used to show the decoder never reads outside the buffer. -/
def unpackLE16D (dflt : Nat) (data : List Nat) (i : Nat) : Nat :=
  data.getD i dflt + 256 * data.getD (i + 1) dflt

/-- `decodeStep` with the instrumented read `unpackLE16D dflt`. -/
def decodeStepD (dflt : Nat) (data : List Nat) (i : Nat) (acc : List Nat) :
    Option (Nat × List Nat) :=
  if i + 1 < data.length then
    if unpackLE16D dflt data i = 0 then none
    else if unpackLE16D dflt data i < 32 then
      if unpackLE16D dflt data i ∈ skipCodes then some (i + 2 + 14, acc)
      else if unpackLE16D dflt data i = 10 then some (i + 2, acc ++ [10])
      else if unpackLE16D dflt data i = 13 then some (i + 2, acc ++ [10])
      else if unpackLE16D dflt data i = 24 then some (i + 2, acc)
      else if unpackLE16D dflt data i = 30 then some (i + 2, acc ++ [160])
      else some (i + 2, acc)
    else some (i + 2, acc ++ [unpackLE16D dflt data i])
  else none

/-- `decode_para_text` with the instrumented read: if the decoder read any
byte outside the buffer it would see `dflt` there, so agreement for every
`dflt` shows no out-of-bounds byte influences the result. -/
def decodeParaTextD (dflt : Nat) (data : List Nat) : List Nat :=
  runLoop (decodeStepD dflt data) data.length 0 []

/-- Record-structure similarity of two equal-length buffers, mirroring the
walk of `extractStep`: headers must agree on `tag_id` and on the size
fields (the 10-bit `level` field is unconstrained), payloads must agree
only for tag-67 records, and the trailing truncated region must agree
byte-for-byte except for a truncated non-67 payload. -/
def simLoop (d d' : List Nat) : Nat → Nat → Bool
  | 0, _ => true
  | fuel + 1, i =>
    if i + 4 > d.length then d.drop i == d'.drop i
    else
      (tag_id (unpackLE32 d i) == tag_id (unpackLE32 d' i)) &&
      (size12 (unpackLE32 d i) == size12 (unpackLE32 d' i)) &&
      (if size12 (unpackLE32 d i) = 0xFFF then
        if i + 8 > d.length then d.drop (i + 4) == d'.drop (i + 4)
        else (unpackLE32 d (i + 4) == unpackLE32 d' (i + 4)) &&
          (if i + 8 + unpackLE32 d (i + 4) > d.length then
            (tag_id (unpackLE32 d i) != 67) || (d.drop (i + 8) == d'.drop (i + 8))
          else
            ((tag_id (unpackLE32 d i) != 67) ||
              ((d.drop (i + 8)).take (unpackLE32 d (i + 4)) ==
                (d'.drop (i + 8)).take (unpackLE32 d (i + 4)))) &&
            simLoop d d' fuel (i + 8 + unpackLE32 d (i + 4)))
      else
        if i + 4 + size12 (unpackLE32 d i) > d.length then
          (tag_id (unpackLE32 d i) != 67) || (d.drop (i + 4) == d'.drop (i + 4))
        else
          ((tag_id (unpackLE32 d i) != 67) ||
            ((d.drop (i + 4)).take (size12 (unpackLE32 d i)) ==
              (d'.drop (i + 4)).take (size12 (unpackLE32 d i)))) &&
          simLoop d d' fuel (i + 4 + size12 (unpackLE32 d i)))

/-- Two buffers differ at most in record-header level bits and in payload
bytes of non-67-tagged records (all sizes and tag ids unchanged). -/
def simBuffers (d d' : List Nat) : Bool :=
  (d.length == d'.length) && simLoop d d' (d.length + 1) 0

/-- Fuel irrelevance: once the fuel plus the cursor dominates the bound `N`
past which the step stops, the fueled loop no longer depends on the fuel. -/
theorem loopF_irrel {α : Type} (step : Nat → α → Option (Nat × α)) (N : Nat)
    (hN : ∀ i acc, N ≤ i → step i acc = none)
    (hmono : ∀ i acc i' acc', step i acc = some (i', acc') → i < i') :
    ∀ f1 f2 i acc, N ≤ f1 + i → N ≤ f2 + i →
      loopF step f1 i acc = loopF step f2 i acc := by
  intro f1
  induction f1 with
  | zero =>
    intro f2 i acc h1 h2
    have hstop := hN i acc (by omega)
    cases f2 with
    | zero => rfl
    | succ g => simp [loopF, hstop]
  | succ g ih =>
    intro f2 i acc h1 h2
    cases f2 with
    | zero =>
      have hstop := hN i acc (by omega)
      simp [loopF, hstop]
    | succ g2 =>
      simp only [loopF]
      cases hs : step i acc with
      | none => rfl
      | some p =>
        obtain ⟨i', acc'⟩ := p
        have hlt := hmono i acc i' acc' hs
        exact ih g2 i' acc' (by omega) (by omega)

/-- Two loops with pointwise-equal step functions agree. -/
theorem loopF_congr {α : Type} (s1 s2 : Nat → α → Option (Nat × α))
    (hs : ∀ i acc, s1 i acc = s2 i acc) :
    ∀ fuel i acc, loopF s1 fuel i acc = loopF s2 fuel i acc := by
  intro fuel
  induction fuel with
  | zero => intro i acc; rfl
  | succ g ih =>
    intro i acc
    simp only [loopF, hs i acc]
    cases s2 i acc with
    | none => rfl
    | some p => exact ih p.1 p.2

/-- A stopping step ends the loop with the accumulator unchanged. -/
theorem runLoop_stop {α : Type} (step : Nat → α → Option (Nat × α)) (N i : Nat) (acc : α)
    (h : step i acc = none) : runLoop step N i acc = acc := by
  simp [runLoop, loopF, h]

/-- A continuing step reduces the loop to the loop at the next cursor. -/
theorem runLoop_step {α : Type} (step : Nat → α → Option (Nat × α)) (N : Nat)
    (hN : ∀ i acc, N ≤ i → step i acc = none)
    (hmono : ∀ i acc i' acc', step i acc = some (i', acc') → i < i')
    (i : Nat) (acc : α) (i' : Nat) (acc' : α) (h : step i acc = some (i', acc')) :
    runLoop step N i acc = runLoop step N i' acc' := by
  unfold runLoop
  have h1 : loopF step (N + 1) i acc = loopF step N i' acc' := by simp [loopF, h]
  rw [h1]
  exact loopF_irrel step N hN hmono N (N + 1) i' acc' (by omega) (by omega)

/-- `extractStep` stops at or past the end of the buffer. -/
theorem extractStep_none_of_ge (data : List Nat) :
    ∀ i acc, data.length ≤ i → extractStep data i acc = none := by
  intro i acc h
  unfold extractStep
  rw [if_pos (by omega)]

/-- `extractStep` strictly advances the cursor. -/
theorem extractStep_mono (data : List Nat) :
    ∀ i acc i' acc', extractStep data i acc = some (i', acc') → i < i' := by
  intro i acc i' acc' h
  unfold extractStep at h
  by_cases h1 : i + 4 > data.length
  · rw [if_pos h1] at h; cases h
  rw [if_neg h1] at h
  by_cases h2 : size12 (unpackLE32 data i) = 0xFFF
  · rw [if_pos h2] at h
    by_cases h3 : i + 8 > data.length
    · rw [if_pos h3] at h; cases h
    rw [if_neg h3] at h
    by_cases h4 : i + 8 + unpackLE32 data (i + 4) > data.length
    · rw [if_pos h4] at h; cases h
    rw [if_neg h4] at h
    have := congrArg Prod.fst (Option.some.inj h)
    simp at this
    omega
  · rw [if_neg h2] at h
    by_cases h3 : i + 4 + size12 (unpackLE32 data i) > data.length
    · rw [if_pos h3] at h; cases h
    rw [if_neg h3] at h
    have := congrArg Prod.fst (Option.some.inj h)
    simp at this
    omega

/-- `decodeStep` stops at or past the end of the buffer. -/
theorem decodeStep_none_of_ge (data : List Nat) :
    ∀ i acc, data.length ≤ i → decodeStep data i acc = none := by
  intro i acc h
  unfold decodeStep
  rw [if_neg (by omega)]

/-- `decodeStep` strictly advances the cursor. -/
theorem decodeStep_mono (data : List Nat) :
    ∀ i acc i' acc', decodeStep data i acc = some (i', acc') → i < i' := by
  intro i acc i' acc' h
  unfold decodeStep at h
  by_cases h1 : i + 1 < data.length
  · rw [if_pos h1] at h
    by_cases h0 : unpackLE16 data i = 0
    · rw [if_pos h0] at h; cases h
    rw [if_neg h0] at h
    by_cases hlt : unpackLE16 data i < 32
    · rw [if_pos hlt] at h
      by_cases hm : unpackLE16 data i ∈ skipCodes
      · rw [if_pos hm] at h
        have := congrArg Prod.fst (Option.some.inj h)
        simp at this
        omega
      rw [if_neg hm] at h
      by_cases ha : unpackLE16 data i = 10
      · rw [if_pos ha] at h
        have := congrArg Prod.fst (Option.some.inj h); simp at this; omega
      rw [if_neg ha] at h
      by_cases hb : unpackLE16 data i = 13
      · rw [if_pos hb] at h
        have := congrArg Prod.fst (Option.some.inj h); simp at this; omega
      rw [if_neg hb] at h
      by_cases hc : unpackLE16 data i = 24
      · rw [if_pos hc] at h
        have := congrArg Prod.fst (Option.some.inj h); simp at this; omega
      rw [if_neg hc] at h
      by_cases hd : unpackLE16 data i = 30
      · rw [if_pos hd] at h
        have := congrArg Prod.fst (Option.some.inj h); simp at this; omega
      rw [if_neg hd] at h
      have := congrArg Prod.fst (Option.some.inj h); simp at this; omega
    · rw [if_neg hlt] at h
      have := congrArg Prod.fst (Option.some.inj h); simp at this; omega
  · rw [if_neg h1] at h; cases h

/-- The cursor after a `decodeStep` is the old cursor plus 2 or plus 16. -/
theorem decodeStep_shape (data : List Nat) (i : Nat) (acc : List Nat) (i' : Nat)
    (acc' : List Nat) (h : decodeStep data i acc = some (i', acc')) :
    i' = i + 2 ∨ i' = i + 16 := by
  unfold decodeStep at h
  by_cases h1 : i + 1 < data.length
  · rw [if_pos h1] at h
    by_cases h0 : unpackLE16 data i = 0
    · rw [if_pos h0] at h; cases h
    rw [if_neg h0] at h
    by_cases hlt : unpackLE16 data i < 32
    · rw [if_pos hlt] at h
      by_cases hm : unpackLE16 data i ∈ skipCodes
      · rw [if_pos hm] at h
        have := congrArg Prod.fst (Option.some.inj h)
        simp at this
        omega
      rw [if_neg hm] at h
      by_cases ha : unpackLE16 data i = 10
      · rw [if_pos ha] at h
        have := congrArg Prod.fst (Option.some.inj h); simp at this; omega
      rw [if_neg ha] at h
      by_cases hb : unpackLE16 data i = 13
      · rw [if_pos hb] at h
        have := congrArg Prod.fst (Option.some.inj h); simp at this; omega
      rw [if_neg hb] at h
      by_cases hc : unpackLE16 data i = 24
      · rw [if_pos hc] at h
        have := congrArg Prod.fst (Option.some.inj h); simp at this; omega
      rw [if_neg hc] at h
      by_cases hd : unpackLE16 data i = 30
      · rw [if_pos hd] at h
        have := congrArg Prod.fst (Option.some.inj h); simp at this; omega
      rw [if_neg hd] at h
      have := congrArg Prod.fst (Option.some.inj h); simp at this; omega
    · rw [if_neg hlt] at h
      have := congrArg Prod.fst (Option.some.inj h); simp at this; omega
  · rw [if_neg h1] at h; cases h

/-- C1 (counterexample): on the spec's buffer `[0x43,0x01,0x00,0x00,
0x41,0x00,0x00,0x00]` the 4-byte little-endian header is 0x0143, which
unpacks to tag_id = 323 and size = 0 — not tag_id = 67 and size = 4 as the
claim reads it — so the walker finds no tag-67 record and the decoded text
is empty, not `"A"` (= code point 0x41). -/
theorem c1_spec_buffer_not_A :
    extract_hwp_text [0x43, 0x01, 0x00, 0x00, 0x41, 0x00, 0x00, 0x00] ≠ [0x41] ∧
    extract_hwp_text [0x43, 0x01, 0x00, 0x00, 0x41, 0x00, 0x00, 0x00] = [] ∧
    tag_id (unpackLE32 [0x43, 0x01, 0x00, 0x00, 0x41, 0x00, 0x00, 0x00] 0) = 323 ∧
    size12 (unpackLE32 [0x43, 0x01, 0x00, 0x00, 0x41, 0x00, 0x00, 0x00] 0) = 0 := by
  refine ⟨by decide, by decide, by decide, by decide⟩

/-- C1 (amended): a header that actually encodes tag_id = 67 and size = 4 is
`[0x43,0x00,0x40,0x00]`; on the buffer `[0x43,0x00,0x40,0x00,
0x41,0x00,0x00,0x00]` the record walker followed by the paragraph text
decoder produces exactly the decoded text `"A"` (payload = code 0x0041 'A'
followed by the code-0 stop sentinel). -/
theorem c1_walker_decodes_A :
    extract_hwp_text [0x43, 0x00, 0x40, 0x00, 0x41, 0x00, 0x00, 0x00] = [0x41] ∧
    tag_id (unpackLE32 [0x43, 0x00, 0x40, 0x00, 0x41, 0x00, 0x00, 0x00] 0) = 67 ∧
    size12 (unpackLE32 [0x43, 0x00, 0x40, 0x00, 0x41, 0x00, 0x00, 0x00] 0) = 4 := by
  refine ⟨by decide, by decide, by decide⟩

/-- C3: for a record whose 12-bit size field equals the sentinel 0xFFF, the
walker requires 4 more bytes past the 4-byte header (otherwise it stops
with the accumulated fragments unchanged), takes the true payload size from
the 32-bit little-endian value at record offset 4, and consumes exactly
`8 + true_size` bytes: the walk continues at cursor `i + 8 + true_size`
with the payload sliced from offset `i + 8`. -/
theorem extended_size_record_consumption (data : List Nat) (i : Nat)
    (acc : List (List Nat)) (h4 : i + 4 ≤ data.length)
    (hs : size12 (unpackLE32 data i) = 0xFFF) :
    (data.length < i + 8 → walkFrom data i acc = acc) ∧
    (i + 8 ≤ data.length → i + 8 + unpackLE32 data (i + 4) ≤ data.length →
      walkFrom data i acc =
        walkFrom data (i + 8 + unpackLE32 data (i + 4))
          (pushText (tag_id (unpackLE32 data i))
            ((data.drop (i + 8)).take (unpackLE32 data (i + 4))) acc)) := by
  constructor
  · intro h8
    apply runLoop_stop
    unfold extractStep
    rw [if_neg (by omega), if_pos hs, if_pos (by omega)]
  · intro h8 hp
    apply runLoop_step (extractStep data) data.length (extractStep_none_of_ge data)
      (extractStep_mono data)
    unfold extractStep
    rw [if_neg (by omega), if_pos hs, if_neg (by omega), if_neg (by omega)]

/-- Witness for C3 on the concrete record stream
`[0x43,0x00,0xF0,0xFF, 0x02,0x00,0x00,0x00, 0x41,0x00]`: header with
size12 = 0xFFF, extended size 2, payload `41 00`. -/
theorem extended_size_record_consumption_witness :
    walkFrom [0x43, 0x00, 0xF0, 0xFF, 0x02, 0x00, 0x00, 0x00, 0x41, 0x00] 0 [] =
      walkFrom [0x43, 0x00, 0xF0, 0xFF, 0x02, 0x00, 0x00, 0x00, 0x41, 0x00]
        (0 + 8 + unpackLE32 [0x43, 0x00, 0xF0, 0xFF, 0x02, 0x00, 0x00, 0x00, 0x41, 0x00] 4)
        (pushText
          (tag_id (unpackLE32 [0x43, 0x00, 0xF0, 0xFF, 0x02, 0x00, 0x00, 0x00, 0x41, 0x00] 0))
          (([0x43, 0x00, 0xF0, 0xFF, 0x02, 0x00, 0x00, 0x00, 0x41, 0x00].drop (0 + 8)).take
            (unpackLE32 [0x43, 0x00, 0xF0, 0xFF, 0x02, 0x00, 0x00, 0x00, 0x41, 0x00] 4)) []) :=
  (extended_size_record_consumption
    [0x43, 0x00, 0xF0, 0xFF, 0x02, 0x00, 0x00, 0x00, 0x41, 0x00] 0 []
    (by decide) (by decide)).2 (by decide) (by decide)

/-- C4: for a record whose 12-bit size field differs from 0xFFF, the header
fields unpack as `tag_id = header & 0x3FF`, `level = (header >> 10) & 0x3FF`
and `size = (header >> 20) & 0xFFF`, the payload sliced by the walker has
length exactly the size field's value, and the walk continues at cursor
`i + 4 + size` (the cursor advances exactly `4 + size` bytes). -/
theorem plain_size_record_consumption (data : List Nat) (i : Nat)
    (acc : List (List Nat)) (h4 : i + 4 ≤ data.length)
    (hs : size12 (unpackLE32 data i) ≠ 0xFFF)
    (hp : i + 4 + size12 (unpackLE32 data i) ≤ data.length) :
    tag_id (unpackLE32 data i) = unpackLE32 data i &&& 0x3FF ∧
    level (unpackLE32 data i) = (unpackLE32 data i >>> 10) &&& 0x3FF ∧
    size12 (unpackLE32 data i) = (unpackLE32 data i >>> 20) &&& 0xFFF ∧
    ((data.drop (i + 4)).take (size12 (unpackLE32 data i))).length =
      size12 (unpackLE32 data i) ∧
    walkFrom data i acc =
      walkFrom data (i + 4 + size12 (unpackLE32 data i))
        (pushText (tag_id (unpackLE32 data i))
          ((data.drop (i + 4)).take (size12 (unpackLE32 data i))) acc) := by
  refine ⟨rfl, rfl, rfl, ?_, ?_⟩
  · simp [List.length_take, List.length_drop]
    omega
  · apply runLoop_step (extractStep data) data.length (extractStep_none_of_ge data)
      (extractStep_mono data)
    unfold extractStep
    rw [if_neg (by omega), if_neg hs, if_neg (by omega)]

/-- Witness for C4 on the concrete record stream
`[0x43,0x00,0x40,0x00, 0x41,0x00,0x00,0x00]` (tag 67, size 4). -/
theorem plain_size_record_consumption_witness :
    ((([0x43, 0x00, 0x40, 0x00, 0x41, 0x00, 0x00, 0x00] : List Nat).drop (0 + 4)).take
      (size12 (unpackLE32 [0x43, 0x00, 0x40, 0x00, 0x41, 0x00, 0x00, 0x00] 0))).length =
      size12 (unpackLE32 [0x43, 0x00, 0x40, 0x00, 0x41, 0x00, 0x00, 0x00] 0) ∧
    walkFrom [0x43, 0x00, 0x40, 0x00, 0x41, 0x00, 0x00, 0x00] 0 [] =
      walkFrom [0x43, 0x00, 0x40, 0x00, 0x41, 0x00, 0x00, 0x00]
        (0 + 4 + size12 (unpackLE32 [0x43, 0x00, 0x40, 0x00, 0x41, 0x00, 0x00, 0x00] 0))
        (pushText (tag_id (unpackLE32 [0x43, 0x00, 0x40, 0x00, 0x41, 0x00, 0x00, 0x00] 0))
          (([0x43, 0x00, 0x40, 0x00, 0x41, 0x00, 0x00, 0x00].drop (0 + 4)).take
            (size12 (unpackLE32 [0x43, 0x00, 0x40, 0x00, 0x41, 0x00, 0x00, 0x00] 0))) []) :=
  ⟨(plain_size_record_consumption [0x43, 0x00, 0x40, 0x00, 0x41, 0x00, 0x00, 0x00] 0 []
      (by decide) (by decide) (by decide)).2.2.2.1,
   (plain_size_record_consumption [0x43, 0x00, 0x40, 0x00, 0x41, 0x00, 0x00, 0x00] 0 []
      (by decide) (by decide) (by decide)).2.2.2.2⟩

/-- C7: the record walker terminates cleanly on every truncated buffer —
mid-header (fewer than 4 bytes remain), mid-extended-size (sentinel 0xFFF
seen but fewer than 4 further bytes remain), or mid-payload (declared size
extends past the buffer end) — returning exactly the fragments accumulated
before the truncation point, which `extract_hwp_text` joins into the
returned output. -/
theorem walker_truncation_clean (data : List Nat) (i : Nat) (acc : List (List Nat)) :
    (data.length < i + 4 → walkFrom data i acc = acc) ∧
    (i + 4 ≤ data.length → size12 (unpackLE32 data i) = 0xFFF →
      data.length < i + 8 → walkFrom data i acc = acc) ∧
    (i + 4 ≤ data.length → size12 (unpackLE32 data i) = 0xFFF → i + 8 ≤ data.length →
      data.length < i + 8 + unpackLE32 data (i + 4) → walkFrom data i acc = acc) ∧
    (i + 4 ≤ data.length → size12 (unpackLE32 data i) ≠ 0xFFF →
      data.length < i + 4 + size12 (unpackLE32 data i) → walkFrom data i acc = acc) ∧
    extract_hwp_text data = List.intercalate [10, 10] (walkFrom data 0 []) := by
  refine ⟨?_, ?_, ?_, ?_, rfl⟩
  · intro h
    apply runLoop_stop
    unfold extractStep
    rw [if_pos (by omega)]
  · intro h4 hs h8
    apply runLoop_stop
    unfold extractStep
    rw [if_neg (by omega), if_pos hs, if_pos (by omega)]
  · intro h4 hs h8 hp
    apply runLoop_stop
    unfold extractStep
    rw [if_neg (by omega), if_pos hs, if_neg (by omega), if_pos (by omega)]
  · intro h4 hs hp
    apply runLoop_stop
    unfold extractStep
    rw [if_neg (by omega), if_neg hs, if_pos (by omega)]

/-- Witness for C7: a mid-header truncation keeps the earlier fragment, a
mid-extended-size truncation stops cleanly, and a mid-payload truncation
stops cleanly. -/
theorem walker_truncation_clean_witness :
    walkFrom [0x41, 0x00] 3 [[0x42]] = [[0x42]] ∧
    walkFrom [0x43, 0x00, 0xF0, 0xFF, 0x02] 0 [] = [] ∧
    walkFrom [0x43, 0x00, 0x40, 0x00, 0x41] 0 [] = [] :=
  ⟨(walker_truncation_clean [0x41, 0x00] 3 [[0x42]]).1 (by decide),
   (walker_truncation_clean [0x43, 0x00, 0xF0, 0xFF, 0x02] 0 []).2.1
     (by decide) (by decide) (by decide),
   (walker_truncation_clean [0x43, 0x00, 0x40, 0x00, 0x41] 0 []).2.2.2.1
     (by decide) (by decide) (by decide)⟩

/-- Every inline-control code is nonzero and below 32. -/
theorem mem_skipCodes_bounds (c : Nat) (h : c ∈ skipCodes) : c ≠ 0 ∧ c < 32 := by
  fin_cases h <;> exact ⟨by decide, by decide⟩

/-- One step of `_decode_para_text` agrees with one step of the
specification's code table. -/
theorem decodeStep_eq_spec (data : List Nat) (i : Nat) (acc : List Nat) :
    decodeStep data i acc = decodeSpecStep data i acc := by
  unfold decodeStep decodeSpecStep
  have e : data.getD i 0 + 256 * data.getD (i + 1) 0 = unpackLE16 data i := rfl
  rw [e]
  by_cases h1 : i + 1 < data.length
  · have h2 : i + 2 ≤ data.length := by omega
    rw [if_pos h1, if_pos h2]
    by_cases h0 : unpackLE16 data i = 0
    · rw [if_pos h0, if_pos h0]
    rw [if_neg h0, if_neg h0]
    have espec : specSkipCodes = skipCodes := rfl
    rw [espec]
    by_cases hm : unpackLE16 data i ∈ skipCodes
    · have hb := mem_skipCodes_bounds _ hm
      rw [if_pos hb.2, if_pos hm, if_pos hm]
    · rw [if_neg hm]
      by_cases hlt : unpackLE16 data i < 32
      · rw [if_pos hlt]
        by_cases ha : unpackLE16 data i = 10
        · rw [if_pos ha, if_pos (Or.inl ha), if_neg hm]
        rw [if_neg ha]
        by_cases hb13 : unpackLE16 data i = 13
        · rw [if_pos hb13, if_pos (Or.inr hb13), if_neg hm]
        have hor : ¬(unpackLE16 data i = 10 ∨ unpackLE16 data i = 13) := by tauto
        rw [if_neg hb13, if_neg hor]
        by_cases hc : unpackLE16 data i = 24
        · rw [if_pos hc, if_pos hc, if_neg hm]
        rw [if_neg hc, if_neg hc]
        by_cases hd : unpackLE16 data i = 30
        · rw [if_pos hd, if_pos hd, if_neg hm]
        rw [if_neg hd, if_neg hd, if_pos hlt, if_neg hm]
      · have ha : ¬unpackLE16 data i = 10 := by omega
        have hb13 : ¬unpackLE16 data i = 13 := by omega
        have hor : ¬(unpackLE16 data i = 10 ∨ unpackLE16 data i = 13) := by tauto
        have hc : ¬unpackLE16 data i = 24 := by omega
        have hd : ¬unpackLE16 data i = 30 := by omega
        rw [if_neg hlt, if_neg hor, if_neg hc, if_neg hd, if_neg hlt, if_neg hm]
  · have h2 : ¬i + 2 ≤ data.length := by omega
    rw [if_neg h1, if_neg h2]

/-- C2: on every payload byte buffer the paragraph text decoder
`decode_para_text` obeys the specification's full code table
(`decodeParaTextSpec`): it walks 16-bit little-endian codes; code 0 stops
immediately; each code in {1,2,3,11,12,14,15,16,17,18,21,22,23} skips a
further fixed 14 bytes and emits nothing; codes 10 and 13 emit a line
break; code 24 emits nothing; code 30 emits a non-breaking space; any other
code below 32 emits nothing; any code at least 32 emits the character at
that code point; the result is the concatenation of the emitted characters
with no separator. -/
theorem decode_para_text_obeys_code_table (data : List Nat) :
    decode_para_text data = decodeParaTextSpec data := by
  unfold decode_para_text decodeFrom decodeParaTextSpec runLoop
  exact loopF_congr _ _ (decodeStep_eq_spec data) _ 0 []

/-- An in-bounds `getD` does not depend on the fallback value. -/
theorem getD_indep (l : List Nat) (j : Nat) (d1 d2 : Nat) (h : j < l.length) :
    l.getD j d1 = l.getD j d2 := by
  simp [List.getD, List.getElem?_eq_getElem h]

/-- An in-bounds `getD` on an extended list reads the original list. -/
theorem getD_append_left (l l' : List Nat) (j d : Nat) (h : j < l.length) :
    (l ++ l').getD j d = l.getD j d := by
  simp [List.getD, List.getElem?_append_left h]

/-- The decode step never uses the out-of-bounds fallback value. -/
theorem decodeStepD_eq (dflt : Nat) (data : List Nat) (i : Nat) (acc : List Nat) :
    decodeStepD dflt data i acc = decodeStep data i acc := by
  unfold decodeStepD decodeStep
  by_cases h1 : i + 1 < data.length
  · have e : unpackLE16D dflt data i = unpackLE16 data i := by
      unfold unpackLE16D unpackLE16
      rw [getD_indep data i dflt 0 (by omega), getD_indep data (i + 1) dflt 0 h1]
    rw [e]
  · rw [if_neg h1, if_neg h1]

/-- Appending one byte to an even-length buffer does not change any decode
step taken at an even cursor. -/
theorem decodeStep_append_even (data : List Nat) (b : Nat) (i : Nat) (acc : List Nat)
    (hlen : data.length % 2 = 0) (hi : i % 2 = 0) :
    decodeStep (data ++ [b]) i acc = decodeStep data i acc := by
  unfold decodeStep
  by_cases h1 : i + 1 < data.length
  · have h1' : i + 1 < (data ++ [b]).length := by
      simp only [List.length_append, List.length_singleton]
      omega
    have e : unpackLE16 (data ++ [b]) i = unpackLE16 data i := by
      unfold unpackLE16
      rw [getD_append_left data [b] i 0 (by omega), getD_append_left data [b] (i + 1) 0 h1]
    rw [if_pos h1, if_pos h1', e]
  · have h1' : ¬i + 1 < (data ++ [b]).length := by
      simp only [List.length_append, List.length_singleton]
      omega
    rw [if_neg h1, if_neg h1']

/-- Appending one byte to an even-length buffer does not change the decode
loop started at an even cursor. -/
theorem decode_append_even_loop (data : List Nat) (b : Nat) (hlen : data.length % 2 = 0) :
    ∀ fuel i acc, i % 2 = 0 →
      loopF (decodeStep (data ++ [b])) fuel i acc = loopF (decodeStep data) fuel i acc := by
  intro fuel
  induction fuel with
  | zero => intro i acc hi; rfl
  | succ g ih =>
    intro i acc hi
    simp only [loopF]
    rw [decodeStep_append_even data b i acc hlen hi]
    cases hs : decodeStep data i acc with
    | none => rfl
    | some p =>
      obtain ⟨i', acc'⟩ := p
      have hshape := decodeStep_shape data i acc i' acc' hs
      exact ih i' acc' (by omega)

/-- C9: the paragraph text decoder is total and reads no byte outside the
buffer: its result is independent of the value an out-of-bounds read would
return (`decodeParaTextD dflt` agrees with it for every fallback `dflt`);
an odd trailing byte is ignored (appending one byte to an even-length
buffer leaves the result unchanged); a skip-control code whose 14-byte
inline block extends past the buffer end makes the decoder stop cleanly
with the characters accumulated so far; and the decoder is the decode loop
started at cursor 0. -/
theorem decode_para_text_total_safe (data : List Nat) :
    (∀ dflt, decodeParaTextD dflt data = decode_para_text data) ∧
    (data.length % 2 = 0 → ∀ b, decode_para_text (data ++ [b]) = decode_para_text data) ∧
    (∀ i acc, i + 1 < data.length → unpackLE16 data i ∈ skipCodes →
      data.length ≤ i + 17 → decodeFrom data i acc = acc) ∧
    decode_para_text data = decodeFrom data 0 [] := by
  refine ⟨?_, ?_, ?_, rfl⟩
  · intro dflt
    unfold decodeParaTextD decode_para_text decodeFrom runLoop
    exact loopF_congr _ _ (fun i acc => decodeStepD_eq dflt data i acc) _ 0 []
  · intro hlen b
    unfold decode_para_text decodeFrom runLoop
    have h1 : loopF (decodeStep (data ++ [b])) ((data ++ [b]).length + 1) 0 [] =
        loopF (decodeStep (data ++ [b])) (data.length + 1) 0 [] := by
      apply loopF_irrel _ ((data ++ [b]).length) (decodeStep_none_of_ge _)
        (decodeStep_mono _)
      · simp
      · simp only [List.length_append, List.length_singleton]
        omega
    rw [h1, decode_append_even_loop data b hlen (data.length + 1) 0 [] rfl]
  · intro i acc h1 hm hend
    have hb := mem_skipCodes_bounds _ hm
    have hstep : decodeStep data i acc = some (i + 2 + 14, acc) := by
      unfold decodeStep
      rw [if_pos h1, if_neg hb.1, if_pos hb.2, if_pos hm]
    have e1 : decodeFrom data i acc = decodeFrom data (i + 2 + 14) acc :=
      runLoop_step _ _ (decodeStep_none_of_ge data) (decodeStep_mono data) _ _ _ _ hstep
    rw [e1]
    apply runLoop_stop
    unfold decodeStep
    have hix : ¬i + 2 + 14 + 1 < data.length := by omega
    rw [if_neg hix]

/-- Witness for C9: fallback-independence at fallback 7, the odd trailing
byte 9 ignored after `[65, 0]`, and a clean stop on `[1, 0]` (skip code 1
with no room for its 14-byte block). -/
theorem decode_para_text_total_safe_witness :
    decodeParaTextD 7 [65, 0] = decode_para_text [65, 0] ∧
    decode_para_text [65, 0, 9] = decode_para_text [65, 0] ∧
    decodeFrom [1, 0] 0 [] = [] :=
  ⟨(decode_para_text_total_safe [65, 0]).1 7,
   (decode_para_text_total_safe [65, 0]).2.1 (by decide) 9,
   (decode_para_text_total_safe [1, 0]).2.2.1 0 [] (by decide) (by decide) (by decide)⟩

/-- C5: `parse_hwp` fails with the no-extractable-text error naming the
input path exactly when the container is valid (`olefile.isOleFile`
accepted it, so every consecutive body section was visited by the section
loop) and zero sections yielded any non-empty text; when the
magic-signature check fails it fails with the distinct not-a-valid-HWP
error instead, and the two error values are never equal. -/
theorem parse_hwp_error_taxonomy (inflate : List Nat → Option (List Nat)) (f : HwpFile) :
    (parse_hwp inflate f = .error (.noExtractableText f.path) ↔
      f.isOle = true ∧ collectParts inflate (isCompressed f) f.sections = []) ∧
    (f.isOle = false → parse_hwp inflate f = .error (.notValidHwp f.path)) ∧
    (∀ p q : String, (ParserError.noExtractableText p) ≠ (ParserError.notValidHwp q)) := by
  refine ⟨?_, ?_, ?_⟩
  · unfold parse_hwp
    by_cases ho : f.isOle = true
    · rw [if_pos ho]
      by_cases hp : collectParts inflate (isCompressed f) f.sections = []
      · rw [if_pos hp]
        simp [ho, hp]
      · rw [if_neg hp]
        simp [ho, hp]
    · rw [if_neg ho]
      simp [ho]
  · intro ho
    unfold parse_hwp
    rw [if_neg (by simp [ho])]
  · intro p q h
    cases h

/-- Witness for C5: a valid container whose only state is an empty section
list yields the no-extractable-text error for its path. -/
theorem parse_hwp_error_taxonomy_witness :
    parse_hwp (fun _ => none) ⟨true, [], [], "doc.hwp"⟩ =
      .error (.noExtractableText "doc.hwp") :=
  (parse_hwp_error_taxonomy (fun _ => none) ⟨true, [], [], "doc.hwp"⟩).1.mpr ⟨rfl, rfl⟩

/-- C6: with the compression flag set, a section whose bytes fail
raw-deflate decompression (`inflate` returns `none`) contributes nothing
and is not fatal: for a valid container with three sections of which the
middle one fails to decompress, `parse_hwp` succeeds and its output is
exactly the text of the other two sections joined by the blank-line
separator. -/
theorem one_failed_section_skipped (inflate : List Nat → Option (List Nat)) (f : HwpFile)
    (a b c da dc : List Nat)
    (hS : f.sections = [a, b, c]) (hO : f.isOle = true) (hC : isCompressed f = true)
    (ha : inflate a = some da) (hb : inflate b = none) (hc : inflate c = some dc)
    (hta : extract_hwp_text da ≠ []) (htc : extract_hwp_text dc ≠ []) :
    parse_hwp inflate f =
      .ok (extract_hwp_text da ++ [10, 10] ++ extract_hwp_text dc) := by
  unfold parse_hwp
  rw [if_pos hO, hS, hC]
  have hcp : collectParts inflate true [a, b, c] =
      [extract_hwp_text da, extract_hwp_text dc] := by
    simp [collectParts, ha, hb, hc, hta, htc]
  rw [hcp, if_neg (by simp)]
  simp [List.intercalate, List.intersperse]

/-- Witness for C6: a concrete three-section container whose middle section
is the empty byte string, with an inflate function that fails exactly on
empty input; the output is the two decoded texts `"A"` and `"B"` joined by
a blank line. -/
theorem one_failed_section_skipped_witness :
    parse_hwp (fun d => if d = [] then none else some d)
      ⟨true, List.replicate 36 0 ++ [1],
        [[0x43, 0x00, 0x40, 0x00, 0x41, 0x00, 0x00, 0x00], [],
         [0x43, 0x00, 0x40, 0x00, 0x42, 0x00, 0x00, 0x00]], "doc.hwp"⟩ =
      .ok ([0x41] ++ [10, 10] ++ [0x42]) :=
  one_failed_section_skipped (fun d => if d = [] then none else some d)
    ⟨true, List.replicate 36 0 ++ [1],
      [[0x43, 0x00, 0x40, 0x00, 0x41, 0x00, 0x00, 0x00], [],
       [0x43, 0x00, 0x40, 0x00, 0x42, 0x00, 0x00, 0x00]], "doc.hwp"⟩
    [0x43, 0x00, 0x40, 0x00, 0x41, 0x00, 0x00, 0x00] []
    [0x43, 0x00, 0x40, 0x00, 0x42, 0x00, 0x00, 0x00]
    [0x43, 0x00, 0x40, 0x00, 0x41, 0x00, 0x00, 0x00]
    [0x43, 0x00, 0x40, 0x00, 0x42, 0x00, 0x00, 0x00]
    rfl rfl (by decide) (by decide) (by decide) (by decide) (by decide) (by decide)

/-- C8: the compression flag is bit 0 of byte 36 of the `FileHeader` stream
(`isCompressed` is true exactly when that byte is odd), and decompression
is invoked iff the flag is true: with the flag set the section loop
processes `inflate s` for each section `s`, and with the flag clear it
processes each section's bytes unchanged (`some s`), passing them to the
record walker as they are. -/
theorem compression_flag_gates_inflate (f : HwpFile)
    (inflate : List Nat → Option (List Nat)) :
    (isCompressed f = true ↔ f.header.getD 36 0 % 2 = 1) ∧
    (∀ ss, collectParts inflate true ss = collectPartsOpt (ss.map inflate)) ∧
    (∀ ss, collectParts inflate false ss = collectPartsOpt (ss.map some)) := by
  refine ⟨?_, ?_, ?_⟩
  · unfold isCompressed
    rw [Nat.and_one_is_mod]
    simp only [bne_iff_ne, ne_eq]
    omega
  · intro ss
    induction ss with
    | nil => rfl
    | cons s rest ih =>
      cases hs : inflate s with
      | none => simp [collectParts, hs, collectPartsOpt, ih]
      | some d => simp [collectParts, hs, collectPartsOpt, ih]
  · intro ss
    induction ss with
    | nil => rfl
    | cons s rest ih => simp [collectParts, collectPartsOpt, ih]


/-- Zero fuel returns the accumulator. -/
theorem loopF_zero {α : Type} (step : Nat → α → Option (Nat × α)) (i : Nat) (acc : α) :
    loopF step 0 i acc = acc := rfl

/-- With positive fuel, a stopping step returns the accumulator. -/
theorem loopF_succ_none {α : Type} (step : Nat → α → Option (Nat × α)) (fuel i : Nat)
    (acc : α) (h : step i acc = none) : loopF step (fuel + 1) i acc = acc := by
  simp [loopF, h]

/-- With positive fuel, a continuing step recurses with one unit less fuel. -/
theorem loopF_succ_some {α : Type} (step : Nat → α → Option (Nat × α)) (fuel i : Nat)
    (acc : α) (i' : Nat) (acc' : α) (h : step i acc = some (i', acc')) :
    loopF step (fuel + 1) i acc = loopF step fuel i' acc' := by
  simp [loopF, h]

/-- Record-structure-similar buffers drive the record walker through
identical steps: same stop conditions, same cursors, and identical
accumulator updates (payloads can differ only for non-67 records, whose
payload the walker never decodes). -/
theorem simLoop_sound (d d' : List Nat) (hlen : d.length = d'.length) :
    ∀ fuel i acc, simLoop d d' fuel i = true →
      loopF (extractStep d) fuel i acc = loopF (extractStep d') fuel i acc := by
  intro fuel
  induction fuel with
  | zero =>
    intro i acc hsim
    rw [loopF_zero (extractStep d), loopF_zero (extractStep d')]
  | succ g ih =>
    intro i acc hsim
    simp only [simLoop] at hsim
    by_cases h4 : i + 4 > d.length
    · have e1 : extractStep d i acc = none := by
        unfold extractStep; rw [if_pos h4]
      have e2 : extractStep d' i acc = none := by
        unfold extractStep; rw [if_pos (by omega)]
      rw [loopF_succ_none (extractStep d) g i acc e1,
        loopF_succ_none (extractStep d') g i acc e2]
    · rw [if_neg h4, Bool.and_eq_true] at hsim
      obtain ⟨hab, hrest⟩ := hsim
      rw [Bool.and_eq_true] at hab
      obtain ⟨htagb, hszb⟩ := hab
      rw [beq_iff_eq] at htagb
      rw [beq_iff_eq] at hszb
      by_cases hff : size12 (unpackLE32 d i) = 0xFFF
      · have hff' : size12 (unpackLE32 d' i) = 0xFFF := by rw [← hszb]; exact hff
        rw [if_pos hff] at hrest
        by_cases h8 : i + 8 > d.length
        · have e1 : extractStep d i acc = none := by
            unfold extractStep; rw [if_neg h4, if_pos hff, if_pos h8]
          have e2 : extractStep d' i acc = none := by
            unfold extractStep; rw [if_neg (by omega), if_pos hff', if_pos (by omega)]
          rw [loopF_succ_none (extractStep d) g i acc e1,
            loopF_succ_none (extractStep d') g i acc e2]
        · rw [if_neg h8, Bool.and_eq_true] at hrest
          obtain ⟨hszeb, hrest2⟩ := hrest
          rw [beq_iff_eq] at hszeb
          by_cases hp : i + 8 + unpackLE32 d (i + 4) > d.length
          · have e1 : extractStep d i acc = none := by
              unfold extractStep; rw [if_neg h4, if_pos hff, if_neg h8, if_pos hp]
            have e2 : extractStep d' i acc = none := by
              unfold extractStep
              rw [if_neg (by omega), if_pos hff', if_neg (by omega),
                if_pos (by rw [← hszeb]; omega)]
            rw [loopF_succ_none (extractStep d) g i acc e1,
              loopF_succ_none (extractStep d') g i acc e2]
          · rw [if_neg hp, Bool.and_eq_true] at hrest2
            obtain ⟨hpay, hsimnext⟩ := hrest2
            have e1 : extractStep d i acc = some (i + 8 + unpackLE32 d (i + 4),
                pushText (tag_id (unpackLE32 d i))
                  ((d.drop (i + 8)).take (unpackLE32 d (i + 4))) acc) := by
              unfold extractStep
              rw [if_neg h4, if_pos hff, if_neg h8, if_neg hp]
            have e2 : extractStep d' i acc = some (i + 8 + unpackLE32 d' (i + 4),
                pushText (tag_id (unpackLE32 d' i))
                  ((d'.drop (i + 8)).take (unpackLE32 d' (i + 4))) acc) := by
              unfold extractStep
              rw [if_neg (by omega), if_pos hff', if_neg (by omega),
                if_neg (by rw [← hszeb]; omega)]
            rw [loopF_succ_some (extractStep d) g i acc _ _ e1,
              loopF_succ_some (extractStep d') g i acc _ _ e2, ← hszeb, ← htagb]
            have hpush : pushText (tag_id (unpackLE32 d i))
                ((d'.drop (i + 8)).take (unpackLE32 d (i + 4))) acc =
                pushText (tag_id (unpackLE32 d i))
                  ((d.drop (i + 8)).take (unpackLE32 d (i + 4))) acc := by
              by_cases ht67 : tag_id (unpackLE32 d i) = 67
              · have hne : (tag_id (unpackLE32 d i) != 67) = false := by simp [ht67]
                rw [hne, Bool.false_or, beq_iff_eq] at hpay
                rw [hpay]
              · unfold pushText
                rw [if_neg ht67, if_neg ht67]
            rw [hpush]
            exact ih (i + 8 + unpackLE32 d (i + 4)) _ hsimnext
      · have hff' : ¬size12 (unpackLE32 d' i) = 0xFFF := by rw [← hszb]; exact hff
        rw [if_neg hff] at hrest
        by_cases hp : i + 4 + size12 (unpackLE32 d i) > d.length
        · have e1 : extractStep d i acc = none := by
            unfold extractStep; rw [if_neg h4, if_neg hff, if_pos hp]
          have e2 : extractStep d' i acc = none := by
            unfold extractStep
            rw [if_neg (by omega), if_neg hff', if_pos (by rw [← hszb]; omega)]
          rw [loopF_succ_none (extractStep d) g i acc e1,
            loopF_succ_none (extractStep d') g i acc e2]
        · rw [if_neg hp, Bool.and_eq_true] at hrest
          obtain ⟨hpay, hsimnext⟩ := hrest
          have e1 : extractStep d i acc = some (i + 4 + size12 (unpackLE32 d i),
              pushText (tag_id (unpackLE32 d i))
                ((d.drop (i + 4)).take (size12 (unpackLE32 d i))) acc) := by
            unfold extractStep
            rw [if_neg h4, if_neg hff, if_neg hp]
          have e2 : extractStep d' i acc = some (i + 4 + size12 (unpackLE32 d' i),
              pushText (tag_id (unpackLE32 d' i))
                ((d'.drop (i + 4)).take (size12 (unpackLE32 d' i))) acc) := by
            unfold extractStep
            rw [if_neg (by omega), if_neg hff', if_neg (by rw [← hszb]; omega)]
          rw [loopF_succ_some (extractStep d) g i acc _ _ e1,
            loopF_succ_some (extractStep d') g i acc _ _ e2, ← hszb, ← htagb]
          have hpush : pushText (tag_id (unpackLE32 d i))
              ((d'.drop (i + 4)).take (size12 (unpackLE32 d i))) acc =
              pushText (tag_id (unpackLE32 d i))
                ((d.drop (i + 4)).take (size12 (unpackLE32 d i))) acc := by
            by_cases ht67 : tag_id (unpackLE32 d i) = 67
            · have hne : (tag_id (unpackLE32 d i) != 67) = false := by simp [ht67]
              rw [hne, Bool.false_or, beq_iff_eq] at hpay
              rw [hpay]
            · unfold pushText
              rw [if_neg ht67, if_neg ht67]
          rw [hpush]
          exact ih (i + 4 + size12 (unpackLE32 d i)) _ hsimnext

/-- C10: the text returned by the record walker is independent of the
10-bit level field of every record header and of the payload contents of
every non-67-tagged record: any two buffers related by `simBuffers` (same
length, same tag and size fields record by record, payloads equal for
tag-67 records, level bits and non-67 payloads free) produce identical
output text. -/
theorem walker_level_payload_noninterference (d d' : List Nat)
    (h : simBuffers d d' = true) :
    extract_hwp_text d = extract_hwp_text d' := by
  unfold simBuffers at h
  rw [Bool.and_eq_true] at h
  obtain ⟨hlenb, hsim⟩ := h
  rw [beq_iff_eq] at hlenb
  unfold extract_hwp_text walkFrom runLoop
  rw [show d'.length = d.length from hlenb.symm]
  exact congrArg (List.intercalate [10, 10])
    (simLoop_sound d d' hlenb (d.length + 1) 0 [] hsim)

/-- Witness for C10: two concrete two-record streams that differ in the
level bits of both headers and in the payload of the first (tag 68) record
but agree on the tag-67 record decode to the same text. -/
theorem walker_level_payload_noninterference_witness :
    simBuffers
      [0x44, 0x00, 0x20, 0x00, 0xAA, 0xBB,
       0x43, 0x00, 0x40, 0x00, 0x41, 0x00, 0x00, 0x00]
      [0x44, 0x08, 0x20, 0x00, 0x01, 0x02,
       0x43, 0x04, 0x40, 0x00, 0x41, 0x00, 0x00, 0x00] = true ∧
    extract_hwp_text
      [0x44, 0x00, 0x20, 0x00, 0xAA, 0xBB,
       0x43, 0x00, 0x40, 0x00, 0x41, 0x00, 0x00, 0x00] =
      extract_hwp_text
        [0x44, 0x08, 0x20, 0x00, 0x01, 0x02,
         0x43, 0x04, 0x40, 0x00, 0x41, 0x00, 0x00, 0x00] :=
  ⟨by decide,
   walker_level_payload_noninterference
     [0x44, 0x00, 0x20, 0x00, 0xAA, 0xBB,
      0x43, 0x00, 0x40, 0x00, 0x41, 0x00, 0x00, 0x00]
     [0x44, 0x08, 0x20, 0x00, 0x01, 0x02,
      0x43, 0x04, 0x40, 0x00, 0x41, 0x00, 0x00, 0x00] (by decide)⟩

/-- Witness for C8: a header whose byte 36 is 1 is compressed, and the two
section-loop equations instantiated on concrete one-section lists. -/
theorem compression_flag_gates_inflate_witness :
    isCompressed ⟨true, List.replicate 36 0 ++ [1], [], "doc.hwp"⟩ = true ∧
    collectParts (fun _ => none) true [[0x41]] =
      collectPartsOpt ([[0x41]].map (fun _ => none)) ∧
    collectParts (fun _ => none) false
        [[0x43, 0x00, 0x40, 0x00, 0x41, 0x00, 0x00, 0x00]] =
      collectPartsOpt
        ([[0x43, 0x00, 0x40, 0x00, 0x41, 0x00, 0x00, 0x00]].map some) :=
  ⟨(compression_flag_gates_inflate ⟨true, List.replicate 36 0 ++ [1], [], "doc.hwp"⟩
      (fun _ => none)).1.mpr (by decide),
   (compression_flag_gates_inflate ⟨true, List.replicate 36 0 ++ [1], [], "doc.hwp"⟩
      (fun _ => none)).2.1 [[0x41]],
   (compression_flag_gates_inflate ⟨true, List.replicate 36 0 ++ [1], [], "doc.hwp"⟩
      (fun _ => none)).2.2 [[0x43, 0x00, 0x40, 0x00, 0x41, 0x00, 0x00, 0x00]]⟩
